import Mathlib

/-!
Verification of the bill-upload pipeline of the repository
(`src/api/streamlit_app.py` and `src/oai_client.py`).

The Python code is shallowly embedded: byte sequences are `List Nat`,
the flat bills directory and the document database are explicit state
(association list / list of records), and the external services
(OpenAI client, pdf2image conversion, PyPDF2 extraction, MongoDB insert,
file write) are oracles supplied in an environment record, each fallible
exactly where the Python call can raise.
-/

namespace BillApp

/-- Byte sequences (Python `bytes`). -/
abbrev Bytes := List Nat

/-- The flat file system: an association of paths to contents.
`open(path, "wb")` overwrites, `Path.unlink` removes, `Path.exists` looks up. -/
abbrev FS := List (String × Bytes)

/-- Write `content` at `path`, overwriting any previous entry
(Python `open(file_path, "wb"); f.write(file_content)`). -/
def fsWrite (fs : FS) (path : String) (content : Bytes) : FS :=
  (path, content) :: fs.filter (fun e => !(e.1 == path))

/-- Contents stored at `path`, if any. -/
def fsRead (fs : FS) (path : String) : Option Bytes :=
  (fs.find? (fun e => e.1 == path)).map (fun e => e.2)

/-- Python `file_path.exists()`. -/
def fsExists (fs : FS) (path : String) : Bool :=
  fs.any (fun e => e.1 == path)

/-- Python `file_path.unlink()` guarded by `exists()`: removing a path that
is absent leaves the file system unchanged. -/
def fsDelete (fs : FS) (path : String) : FS :=
  fs.filter (fun e => !(e.1 == path))

/-- The status enumeration stored in the `status` field of a bill record:
`"pending"`, `"processed"`, `"analyzed"`. -/
inductive Status where
  | pending
  | processed
  | analyzed
deriving Repr, DecidableEq

/-- Position of a status in the forward order `pending → processed → analyzed`. -/
def Status.rank : Status → Nat
  | .pending => 0
  | .processed => 1
  | .analyzed => 2

/-- A bill document as inserted by `save_uploaded_bill` into the `bills`
collection and later mutated by `analyze_medical_bill` (`$set` adds the
`analysis` field, modelled as an `Option` that starts out `none`). -/
structure BillRecord where
  id : String
  path : String
  status : Status
  summary : Option String
  uploaded_at : Nat
  processed_at : Option Nat
  analysis : Option String
deriving Repr, DecidableEq

/-- The dictionary returned by a successful `save_uploaded_bill`:
exactly the keys `id`, `status`, `summary`
(`{"id": str(bill_uuid), "status": status, "summary": summary}`). -/
structure Payload where
  id : String
  status : Status
  summary : Option String
deriving Repr, DecidableEq

/-- External services used by `summarize_bill_with_vision`:
whether the OpenAI client was constructed (`OPENAI_API_KEY` present),
the outcome of `convert_from_path(file_path, first_page=1, last_page=1)`
(a raised exception or a list of page images, each modelled as its
base64 encoding), and the outcome of the vision chat-completion call on
the first page image. -/
structure VisionEnv where
  openaiConfigured : Bool
  convert : String → Except String (List String)
  chat : String → Except String String

/-- Body of the `try` block of `summarize_bill_with_vision`: convert the
PDF (restricted to the first page), raise if no page came back, and send
the first page image to the chat endpoint. -/
def summarizeTryBlock (env : VisionEnv) (file_path : String) : Except String String :=
  match env.convert file_path with
  | Except.error e => Except.error e
  | Except.ok [] => Except.error "Failed to convert PDF to images"
  | Except.ok (img :: _) => env.chat img

/-- `summarize_bill_with_vision`: the unconfigured-client check raises
before the `try` block, so its message is not rewrapped; every exception
escaping the `try` block is rewrapped as
`"Failed to summarize bill: " + str(e)`. -/
def summarize_bill_with_vision (env : VisionEnv) (file_path : String) :
    Except String String :=
  if env.openaiConfigured then
    match summarizeTryBlock env file_path with
    | Except.ok s => Except.ok s
    | Except.error e => Except.error ("Failed to summarize bill: " ++ e)
  else
    Except.error "OpenAI API key not configured"

/-- The on-disk location `bills_dir / f"{bill_uuid}.pdf"`. -/
def billFilePath (bills_dir bill_uuid : String) : String :=
  bills_dir ++ "/" ++ bill_uuid ++ ".pdf"

/-- Environment of `save_uploaded_bill`: the UUID generator (`uuid.uuid4()`
yields the token at the current draw index), the wall clock read by
`datetime.now()` (value at the current read index), the vision
summarizer's environment, and whether the file write and the MongoDB
`insert_one` succeed. -/
structure SaveEnv where
  uuidAt : Nat → String
  timeAt : Nat → Nat
  vision : VisionEnv
  writeOk : Bool
  insertOk : Bool

/-- Mutable world threaded through the pipeline: the bills directory's
file system, the `bills` collection, how many UUIDs have been drawn and
how many clock reads have happened. -/
structure World where
  fs : FS
  db : List BillRecord
  uuidCount : Nat
  clock : Nat
deriving Repr

/-- `save_uploaded_bill(file_content, bills_dir)`.

Mirrors `src/api/streamlit_app.py` lines 89–149: draw a UUID, write the
bytes to `bills_dir/{uuid}.pdf`, attempt `summarize_bill_with_vision` as
a best-effort sub-step (success sets `status = "processed"` and reads
`processed_at = datetime.now()`; any failure is swallowed and leaves
`status = "pending"`, `summary = None`), build the document with
`uploaded_at = datetime.now()` and the hard-coded path
`"./bills/{uuid}.pdf"`, insert it, and return the payload.  Any
exception inside the `try` (file write or insert) deletes the file at
`file_path` if it exists and re-raises `"Failed to save bill: ..."`. -/
def save_uploaded_bill (env : SaveEnv) (file_content : Bytes) (bills_dir : String)
    (w : World) : Except String Payload × World :=
  let bill_uuid := env.uuidAt w.uuidCount
  let w0 : World := { w with uuidCount := w.uuidCount + 1 }
  let file_path := billFilePath bills_dir bill_uuid
  if env.writeOk then
    let w1 : World := { w0 with fs := fsWrite w0.fs file_path file_content }
    let step :=
      match summarize_bill_with_vision env.vision file_path with
      | Except.ok s =>
          ((some s, Status.processed, some (env.timeAt w1.clock)),
            { w1 with clock := w1.clock + 1 })
      | Except.error _ =>
          ((none, Status.pending, none), w1)
    let summary := step.1.1
    let status := step.1.2.1
    let processed_at := step.1.2.2
    let w2 := step.2
    let uploaded_at := env.timeAt w2.clock
    let w3 : World := { w2 with clock := w2.clock + 1 }
    let document : BillRecord :=
      { id := bill_uuid
        path := "./bills/" ++ bill_uuid ++ ".pdf"
        status := status
        summary := summary
        uploaded_at := uploaded_at
        processed_at := processed_at
        analysis := none }
    if env.insertOk then
      (Except.ok { id := bill_uuid, status := status, summary := summary },
        { w3 with db := w3.db ++ [document] })
    else
      (Except.error "Failed to save bill: insert failed",
        { w3 with fs := fsDelete w3.fs file_path })
  else
    (Except.error "Failed to save bill: write failed",
      { w0 with fs := fsDelete w0.fs file_path })

/-- External services used by `analyze_medical_bill` in `src/oai_client.py`:
the outcome of the PyPDF2 text extraction on the file's bytes (inside the
`try` of `extract_text_from_pdf`) and of the gpt-4 chat-completion call
on the extracted bill text. -/
structure AnalyzeEnv where
  extractRaw : Bytes → Except String String
  chat : String → Except String String

/-- `extract_text_from_pdf`: run the extraction and rewrap any exception
as `"Failed to extract text from PDF: " + str(e)`. -/
def extract_text_from_pdf (env : AnalyzeEnv) (content : Bytes) :
    Except String String :=
  match env.extractRaw content with
  | Except.ok t => Except.ok t
  | Except.error e => Except.error ("Failed to extract text from PDF: " ++ e)

/-- `get_bill_by_id`: `bills_collection.find_one({"id": bill_id})` — the
first document whose `id` field matches. -/
def get_bill_by_id (db : List BillRecord) (bill_id : String) : Option BillRecord :=
  db.find? (fun r => r.id == bill_id)

/-- `bills_collection.update_one({"id": bill_id}, {"$set": {"status":
"analyzed", "analysis": analysis_result}})`: mutate the first matching
document only. -/
def update_one_analyzed (db : List BillRecord) (bill_id : String)
    (analysis_result : String) : List BillRecord :=
  match db with
  | [] => []
  | r :: rest =>
      if r.id == bill_id then
        { r with status := Status.analyzed, analysis := some analysis_result } :: rest
      else
        r :: update_one_analyzed rest bill_id analysis_result

/-- The dictionary returned by a successful `analyze_medical_bill`:
keys `bill_id`, `status`, `analysis`, `bill_text`. -/
structure AnalysisPayload where
  bill_id : String
  status : Status
  analysis : String
  bill_text : String
deriving Repr, DecidableEq

/-- `analyze_medical_bill(bill_id)` (`src/oai_client.py` lines 60–125):
look the record up by id (raise if absent), check the file at the
record's `path` exists (raise if not), extract the PDF text, submit one
chat completion, set `status = "analyzed"` and the `analysis` field on
the stored record, and return the payload with the bill text truncated
to 500 characters.  The resulting `bills` collection is returned
alongside the outcome; failing paths leave it untouched. -/
def analyze_medical_bill (env : AnalyzeEnv) (bill_id : String)
    (db : List BillRecord) (fs : FS) :
    Except String AnalysisPayload × List BillRecord :=
  match get_bill_by_id db bill_id with
  | none => (Except.error ("Bill with ID " ++ bill_id ++ " not found"), db)
  | some bill_doc =>
      match fsRead fs bill_doc.path with
      | none => (Except.error ("Bill file not found at " ++ bill_doc.path), db)
      | some content =>
          match extract_text_from_pdf env content with
          | Except.error e => (Except.error e, db)
          | Except.ok bill_text =>
              match env.chat bill_text with
              | Except.error e => (Except.error e, db)
              | Except.ok analysis_result =>
                  (Except.ok
                    { bill_id := bill_id
                      status := Status.analyzed
                      analysis := analysis_result
                      bill_text :=
                        if bill_text.length > 500 then
                          bill_text.take 500 ++ "..."
                        else bill_text },
                    update_one_analyzed db bill_id analysis_result)

/-! ### Concrete fixtures used to instantiate the theorems -/

/-- A vision environment with no `OPENAI_API_KEY`: the client is `None`. -/
def noKeyVision : VisionEnv :=
  { openaiConfigured := false
    convert := fun _ => Except.ok []
    chat := fun _ => Except.ok "unused" }

/-- A fully working vision environment: one page converts, the chat call
answers. -/
def okVision : VisionEnv :=
  { openaiConfigured := true
    convert := fun _ => Except.ok ["page1img"]
    chat := fun _ => Except.ok "the summary" }

/-- A save environment over a given vision environment, with a decimal
counter as the UUID stream and the identity clock. -/
def mkSaveEnv (v : VisionEnv) (wOk iOk : Bool) : SaveEnv :=
  { uuidAt := fun n => Nat.repr n
    timeAt := fun t => t
    vision := v
    writeOk := wOk
    insertOk := iOk }

/-- Empty bills directory and empty `bills` collection. -/
def emptyWorld : World :=
  { fs := [], db := [], uuidCount := 0, clock := 0 }

/-- An analysis environment whose extraction and chat calls both succeed. -/
def okAnalyzeEnv : AnalyzeEnv :=
  { extractRaw := fun _ => Except.ok "bill text"
    chat := fun _ => Except.ok "analysis result" }

/-- A stored pending bill record. -/
def sampleRecord : BillRecord :=
  { id := "b1", path := "./bills/b1.pdf", status := Status.pending,
    summary := none, uploaded_at := 0, processed_at := none, analysis := none }

/-- A one-record `bills` collection. -/
def sampleDb : List BillRecord := [sampleRecord]

/-- A file system holding the sample record's file. -/
def sampleFs : FS := [("./bills/b1.pdf", [37, 80, 68, 70])]

/-! ### File-system lemmas -/

theorem fsRead_fsWrite_self (fs : FS) (p : String) (c : Bytes) :
    fsRead (fsWrite fs p c) p = some c := by
  simp [fsRead, fsWrite]

theorem find?_filter_ne (fs : FS) (p p' : String) (h : p' ≠ p) :
    (fs.filter (fun e => !(e.1 == p))).find? (fun e => e.1 == p') =
      fs.find? (fun e => e.1 == p') := by
  induction fs with
  | nil => simp
  | cons e rest ih =>
      by_cases he : e.1 = p
      · have h1 : (e.1 == p) = true := beq_iff_eq.mpr he
        have h2 : (e.1 == p') = false := by
          rw [he]
          exact beq_eq_false_iff_ne.mpr (Ne.symm h)
        simp only [List.filter_cons, h1, Bool.not_true, if_neg Bool.false_ne_true, ih]
        rw [List.find?_cons_of_neg _ (by simp [h2])]
      · have h1 : (e.1 == p) = false := beq_eq_false_iff_ne.mpr he
        by_cases he' : e.1 = p'
        · have h2 : (e.1 == p') = true := beq_iff_eq.mpr he'
          simp only [List.filter_cons, h1, Bool.not_false, if_true]
          rw [List.find?_cons_of_pos _ (by simp [h2]),
            List.find?_cons_of_pos _ (by simp [h2])]
        · have h2 : (e.1 == p') = false := beq_eq_false_iff_ne.mpr he'
          simp only [List.filter_cons, h1, Bool.not_false, if_true]
          rw [List.find?_cons_of_neg _ (by simp [h2]),
            List.find?_cons_of_neg _ (by simp [h2]), ih]

theorem fsRead_fsWrite_ne (fs : FS) (p p' : String) (c : Bytes) (h : p' ≠ p) :
    fsRead (fsWrite fs p c) p' = fsRead fs p' := by
  have hpp : (p == p') = false := beq_eq_false_iff_ne.mpr (Ne.symm h)
  unfold fsRead fsWrite
  rw [List.find?_cons_of_neg _ (by simp [hpp]), find?_filter_ne fs p p' h]

theorem fsRead_fsDelete_self (fs : FS) (p : String) :
    fsRead (fsDelete fs p) p = none := by
  have h : (fsDelete fs p).find? (fun e => e.1 == p) = none := by
    rw [List.find?_eq_none]
    intro e he
    have h2 := (List.mem_filter.mp he).2
    simp only [Bool.not_eq_true'] at h2
    simp [h2]
  simp [fsRead, h]

/-! ### String-path injectivity -/

theorem billFilePath_inj (dir a b : String) (h : billFilePath dir a = billFilePath dir b) :
    a = b := by
  unfold billFilePath at h
  have hd : (dir ++ "/" ++ a ++ ".pdf").data = (dir ++ "/" ++ b ++ ".pdf").data := by
    rw [h]
  simp only [String.data_append, List.append_assoc] at hd
  have h1 := List.append_cancel_left hd
  have h2 := List.append_cancel_left h1
  have h3 := List.append_cancel_right h2
  exact String.ext h3

/-! ### Shape lemmas for `save_uploaded_bill` -/

theorem save_eq_pending (env : SaveEnv) (fc : Bytes) (dir : String) (w : World)
    (e : String) (hw : env.writeOk = true) (hi : env.insertOk = true)
    (hs : summarize_bill_with_vision env.vision
      (billFilePath dir (env.uuidAt w.uuidCount)) = Except.error e) :
    save_uploaded_bill env fc dir w =
      (Except.ok { id := env.uuidAt w.uuidCount, status := Status.pending,
                   summary := none },
       { fs := fsWrite w.fs (billFilePath dir (env.uuidAt w.uuidCount)) fc
         db := w.db ++
           [{ id := env.uuidAt w.uuidCount
              path := "./bills/" ++ env.uuidAt w.uuidCount ++ ".pdf"
              status := Status.pending
              summary := none
              uploaded_at := env.timeAt w.clock
              processed_at := none
              analysis := none }]
         uuidCount := w.uuidCount + 1
         clock := w.clock + 1 }) := by
  simp only [save_uploaded_bill, hw, hi, hs, if_true]

theorem save_eq_processed (env : SaveEnv) (fc : Bytes) (dir : String) (w : World)
    (s : String) (hw : env.writeOk = true) (hi : env.insertOk = true)
    (hs : summarize_bill_with_vision env.vision
      (billFilePath dir (env.uuidAt w.uuidCount)) = Except.ok s) :
    save_uploaded_bill env fc dir w =
      (Except.ok { id := env.uuidAt w.uuidCount, status := Status.processed,
                   summary := some s },
       { fs := fsWrite w.fs (billFilePath dir (env.uuidAt w.uuidCount)) fc
         db := w.db ++
           [{ id := env.uuidAt w.uuidCount
              path := "./bills/" ++ env.uuidAt w.uuidCount ++ ".pdf"
              status := Status.processed
              summary := some s
              uploaded_at := env.timeAt (w.clock + 1)
              processed_at := some (env.timeAt w.clock)
              analysis := none }]
         uuidCount := w.uuidCount + 1
         clock := w.clock + 2 }) := by
  simp only [save_uploaded_bill, hw, hi, hs, if_true]

theorem save_success_eq (env : SaveEnv) (fc : Bytes) (dir : String) (w : World)
    (hw : env.writeOk = true) (hi : env.insertOk = true) :
    ∃ (st : Status) (su : Option String) (ua : Nat) (pa : Option Nat) (c : Nat),
      save_uploaded_bill env fc dir w =
        (Except.ok { id := env.uuidAt w.uuidCount, status := st, summary := su },
         { fs := fsWrite w.fs (billFilePath dir (env.uuidAt w.uuidCount)) fc
           db := w.db ++
             [{ id := env.uuidAt w.uuidCount
                path := "./bills/" ++ env.uuidAt w.uuidCount ++ ".pdf"
                status := st
                summary := su
                uploaded_at := ua
                processed_at := pa
                analysis := none }]
           uuidCount := w.uuidCount + 1
           clock := c }) := by
  cases hs : summarize_bill_with_vision env.vision
      (billFilePath dir (env.uuidAt w.uuidCount)) with
  | error e =>
      exact ⟨Status.pending, none, env.timeAt w.clock, none, w.clock + 1,
        save_eq_pending env fc dir w e hw hi hs⟩
  | ok s =>
      exact ⟨Status.processed, some s, env.timeAt (w.clock + 1),
        some (env.timeAt w.clock), w.clock + 2,
        save_eq_processed env fc dir w s hw hi hs⟩

theorem save_insert_fail_eq (env : SaveEnv) (fc : Bytes) (dir : String) (w : World)
    (hw : env.writeOk = true) (hi : env.insertOk = false) :
    (save_uploaded_bill env fc dir w).1 =
        Except.error "Failed to save bill: insert failed" ∧
      (save_uploaded_bill env fc dir w).2.fs =
        fsDelete (fsWrite w.fs (billFilePath dir (env.uuidAt w.uuidCount)) fc)
          (billFilePath dir (env.uuidAt w.uuidCount)) ∧
      (save_uploaded_bill env fc dir w).2.db = w.db := by
  cases hs : summarize_bill_with_vision env.vision
      (billFilePath dir (env.uuidAt w.uuidCount)) with
  | error e =>
      refine ⟨?_, ?_, ?_⟩ <;>
        simp only [save_uploaded_bill, hw, hi, hs, if_true, Bool.false_eq_true,
          if_false]
  | ok s =>
      refine ⟨?_, ?_, ?_⟩ <;>
        simp only [save_uploaded_bill, hw, hi, hs, if_true, Bool.false_eq_true,
          if_false]

/-! ### Lemmas on `update_one_analyzed` -/

theorem update_one_analyzed_map_id (db : List BillRecord) (bill_id a : String) :
    (update_one_analyzed db bill_id a).map (fun r => r.id) =
      db.map (fun r => r.id) := by
  induction db with
  | nil => rfl
  | cons r rest ih =>
      by_cases h : r.id = bill_id
      · simp [update_one_analyzed, beq_iff_eq.mpr h, h]
      · simp [update_one_analyzed, beq_eq_false_iff_ne.mpr h, ih]

theorem get_bill_update_one_analyzed (db : List BillRecord) (bill_id a : String) :
    get_bill_by_id (update_one_analyzed db bill_id a) bill_id =
      (get_bill_by_id db bill_id).map
        (fun r => { r with status := Status.analyzed, analysis := some a }) := by
  induction db with
  | nil => rfl
  | cons r rest ih =>
      by_cases h : r.id = bill_id
      · simp [update_one_analyzed, get_bill_by_id, beq_iff_eq.mpr h, h,
          List.find?_cons_of_pos]
      · have hb := beq_eq_false_iff_ne.mpr h
        simp only [update_one_analyzed, hb, Bool.false_eq_true, if_false,
          get_bill_by_id] at ih ⊢
        rw [List.find?_cons_of_neg _ (by simp [hb]),
          List.find?_cons_of_neg _ (by simp [hb]), ih]

theorem update_one_analyzed_rank (db : List BillRecord) (bill_id a : String) :
    List.Forall₂ (fun r r' : BillRecord => r.status.rank ≤ r'.status.rank)
      db (update_one_analyzed db bill_id a) := by
  induction db with
  | nil => exact List.Forall₂.nil
  | cons r rest ih =>
      by_cases h : r.id = bill_id
      · simp only [update_one_analyzed, beq_iff_eq.mpr h, if_true]
        exact List.Forall₂.cons
          (by cases r.status <;> simp [Status.rank])
          (List.forall₂_same.mpr (fun x _ => le_refl x.status.rank))
      · simp only [update_one_analyzed, beq_eq_false_iff_ne.mpr h,
          Bool.false_eq_true, if_false]
        exact List.Forall₂.cons (le_refl r.status.rank) ih

/-! ### Claim theorems -/

/-- C1: for every input byte sequence (the empty one included) and every
destination directory, a normally-returning `save_uploaded_bill` has
written the file `{id}.pdf` in that directory, `id` being the identifier
of the returned payload, with contents byte-for-byte equal to the input;
no content validation rejects any input (the input bytes are universally
quantified and unconstrained). -/
theorem save_uploaded_bill_writes_exact_bytes (env : SaveEnv) (file_content : Bytes)
    (bills_dir : String) (w : World)
    (hw : env.writeOk = true) (hi : env.insertOk = true) :
    ∃ p : Payload,
      (save_uploaded_bill env file_content bills_dir w).1 = Except.ok p ∧
      fsRead (save_uploaded_bill env file_content bills_dir w).2.fs
        (billFilePath bills_dir p.id) = some file_content := by
  obtain ⟨st, su, ua, pa, c, h⟩ := save_success_eq env file_content bills_dir w hw hi
  refine ⟨{ id := env.uuidAt w.uuidCount, status := st, summary := su }, ?_, ?_⟩
  · rw [h]
  · rw [h]
    exact fsRead_fsWrite_self _ _ _

/-- Witness for C1 at the empty byte sequence. -/
theorem save_uploaded_bill_writes_exact_bytes_witness :
    (save_uploaded_bill (mkSaveEnv noKeyVision true true) [] "./bills" emptyWorld).1 =
        Except.ok { id := "0", status := Status.pending, summary := none } ∧
      fsRead (save_uploaded_bill (mkSaveEnv noKeyVision true true) [] "./bills"
          emptyWorld).2.fs (billFilePath "./bills" "0") = some [] := by
  obtain ⟨p, h1, h2⟩ :=
    save_uploaded_bill_writes_exact_bytes (mkSaveEnv noKeyVision true true) []
      "./bills" emptyWorld rfl rfl
  have he : (save_uploaded_bill (mkSaveEnv noKeyVision true true) [] "./bills"
      emptyWorld).1 =
      Except.ok { id := "0", status := Status.pending, summary := none } := rfl
  have hp : ({ id := "0", status := Status.pending, summary := none } : Payload) = p :=
    Except.ok.inj (he.symm.trans h1)
  rw [← hp] at h2
  exact ⟨he, h2⟩

/-- C2: summarization is best-effort.  If the summarization sub-step fails
for any reason the call still returns successfully (never raises) with
status `pending`, summary `None`, and a stored record with no processed
timestamp; if it succeeds the returned and stored status is `processed`,
the summary is the returned text, and a non-`None` processed timestamp is
recorded. -/
theorem save_uploaded_bill_summarize_best_effort (env : SaveEnv) (fc : Bytes)
    (dir : String) (w : World)
    (hw : env.writeOk = true) (hi : env.insertOk = true) :
    (∀ e, summarize_bill_with_vision env.vision
        (billFilePath dir (env.uuidAt w.uuidCount)) = Except.error e →
      (save_uploaded_bill env fc dir w).1 =
          Except.ok { id := env.uuidAt w.uuidCount, status := Status.pending,
                      summary := none } ∧
        ∃ d : BillRecord, (save_uploaded_bill env fc dir w).2.db = w.db ++ [d] ∧
          d.status = Status.pending ∧ d.summary = none ∧ d.processed_at = none) ∧
    (∀ s, summarize_bill_with_vision env.vision
        (billFilePath dir (env.uuidAt w.uuidCount)) = Except.ok s →
      (save_uploaded_bill env fc dir w).1 =
          Except.ok { id := env.uuidAt w.uuidCount, status := Status.processed,
                      summary := some s } ∧
        ∃ d : BillRecord, (save_uploaded_bill env fc dir w).2.db = w.db ++ [d] ∧
          d.status = Status.processed ∧ d.summary = some s ∧
          d.processed_at ≠ none) := by
  constructor
  · intro e he
    rw [save_eq_pending env fc dir w e hw hi he]
    exact ⟨rfl, _, rfl, rfl, rfl, rfl⟩
  · intro s hs
    rw [save_eq_processed env fc dir w s hw hi hs]
    exact ⟨rfl, _, rfl, rfl, rfl, by simp⟩

/-- Witness for C2: with no API key the upload still succeeds, with status
`pending` and no summary. -/
theorem save_uploaded_bill_summarize_best_effort_witness :
    (save_uploaded_bill (mkSaveEnv noKeyVision true true) [1, 2] "d" emptyWorld).1 =
      Except.ok { id := "0", status := Status.pending, summary := none } :=
  (((save_uploaded_bill_summarize_best_effort (mkSaveEnv noKeyVision true true)
      [1, 2] "d" emptyWorld rfl rfl).1
    "OpenAI API key not configured" rfl)).1

/-- C3: if the storage insert fails after a successful file write, the file
written in that attempt no longer exists afterwards, the failure is
propagated as an exception, and no success payload is returned. -/
theorem save_uploaded_bill_insert_failure_cleanup (env : SaveEnv) (fc : Bytes)
    (dir : String) (w : World)
    (hw : env.writeOk = true) (hi : env.insertOk = false) :
    (∃ e, (save_uploaded_bill env fc dir w).1 = Except.error e) ∧
      fsRead (save_uploaded_bill env fc dir w).2.fs
        (billFilePath dir (env.uuidAt w.uuidCount)) = none := by
  obtain ⟨h1, h2, _⟩ := save_insert_fail_eq env fc dir w hw hi
  refine ⟨⟨_, h1⟩, ?_⟩
  rw [h2]
  exact fsRead_fsDelete_self _ _

/-- Witness for C3. -/
theorem save_uploaded_bill_insert_failure_cleanup_witness :
    fsRead (save_uploaded_bill (mkSaveEnv noKeyVision true false) [9] "d"
        emptyWorld).2.fs (billFilePath "d" "0") = none :=
  (save_uploaded_bill_insert_failure_cleanup (mkSaveEnv noKeyVision true false)
    [9] "d" emptyWorld rfl rfl).2

/-- C4: on every successful call, the inserted record's `id` equals the
returned identifier and the base name (without extension) of the written
file — the file sits at `{dir}/{id}.pdf` — while the stored `path` field
is exactly `"./bills/{id}.pdf"` for every destination directory, not only
`"./bills"`. -/
theorem save_uploaded_bill_record_id_and_path (env : SaveEnv) (fc : Bytes)
    (dir : String) (w : World)
    (hw : env.writeOk = true) (hi : env.insertOk = true) :
    ∀ (p : Payload) (d : BillRecord),
      (save_uploaded_bill env fc dir w).1 = Except.ok p →
      (save_uploaded_bill env fc dir w).2.db = w.db ++ [d] →
      d.id = p.id ∧
        fsRead (save_uploaded_bill env fc dir w).2.fs
          (billFilePath dir d.id) = some fc ∧
        d.path = "./bills/" ++ d.id ++ ".pdf" := by
  obtain ⟨st, su, ua, pa, c, h⟩ := save_success_eq env fc dir w hw hi
  intro p d h1 h2
  rw [h] at h1 h2
  have hp := Except.ok.inj h1
  have hd : ({ id := env.uuidAt w.uuidCount
               path := "./bills/" ++ env.uuidAt w.uuidCount ++ ".pdf"
               status := st, summary := su, uploaded_at := ua,
               processed_at := pa, analysis := none } : BillRecord) = d := by
    have := List.append_cancel_left h2
    simpa using this
  rw [← hp, ← hd, h]
  exact ⟨rfl, fsRead_fsWrite_self _ _ _, rfl⟩

/-- Witness for C4, with a destination directory different from `./bills`. -/
theorem save_uploaded_bill_record_id_and_path_witness :
    fsRead (save_uploaded_bill (mkSaveEnv okVision true true) [7] "elsewhere"
        emptyWorld).2.fs (billFilePath "elsewhere" "0") = some [7] := by
  have h :=
    save_uploaded_bill_record_id_and_path (mkSaveEnv okVision true true) [7]
      "elsewhere" emptyWorld rfl rfl
      { id := "0", status := Status.processed, summary := some "the summary" }
      { id := "0", path := "./bills/0.pdf", status := Status.processed,
        summary := some "the summary", uploaded_at := 1, processed_at := some 0,
        analysis := none } rfl rfl
  exact h.2.1

/-- C9: on the summarization-success path the stored record's
`processed_at` is read from the clock strictly before `uploaded_at`
(clock read index `w.clock` versus `w.clock + 1`), so under a
non-decreasing clock the processed timestamp is never later than the
upload timestamp. -/
theorem processed_at_not_after_uploaded_at (env : SaveEnv) (fc : Bytes)
    (dir : String) (w : World) (s : String)
    (hw : env.writeOk = true) (hi : env.insertOk = true)
    (hs : summarize_bill_with_vision env.vision
      (billFilePath dir (env.uuidAt w.uuidCount)) = Except.ok s)
    (hmono : ∀ i j : Nat, i ≤ j → env.timeAt i ≤ env.timeAt j) :
    ∃ d : BillRecord,
      (save_uploaded_bill env fc dir w).2.db = w.db ++ [d] ∧
      d.processed_at = some (env.timeAt w.clock) ∧
      d.uploaded_at = env.timeAt (w.clock + 1) ∧
      ∀ t, d.processed_at = some t → t ≤ d.uploaded_at := by
  rw [save_eq_processed env fc dir w s hw hi hs]
  refine ⟨_, rfl, rfl, rfl, ?_⟩
  intro t ht
  have := Option.some.inj ht
  rw [← this]
  exact hmono w.clock (w.clock + 1) (Nat.le_succ w.clock)

/-- Witness for C9. -/
theorem processed_at_not_after_uploaded_at_witness :
    ∃ d : BillRecord,
      (save_uploaded_bill (mkSaveEnv okVision true true) [7] "d"
          emptyWorld).2.db = emptyWorld.db ++ [d] ∧
      d.processed_at = some ((mkSaveEnv okVision true true).timeAt
          emptyWorld.clock) ∧
      d.uploaded_at = (mkSaveEnv okVision true true).timeAt
          (emptyWorld.clock + 1) ∧
      ∀ t, d.processed_at = some t → t ≤ d.uploaded_at :=
  processed_at_not_after_uploaded_at (mkSaveEnv okVision true true) [7] "d"
    emptyWorld "the summary" rfl rfl rfl (fun _ _ h => h)

/-- C10: the payload returned by a successful `save_uploaded_bill` has
exactly the keys `id`, `status`, `summary` (the `Payload` structure has
exactly these three fields), and each value equals the corresponding
field of the record inserted into storage in that same call. -/
theorem payload_matches_inserted_record (env : SaveEnv) (fc : Bytes)
    (dir : String) (w : World)
    (hw : env.writeOk = true) (hi : env.insertOk = true) :
    ∀ (p : Payload) (d : BillRecord),
      (save_uploaded_bill env fc dir w).1 = Except.ok p →
      (save_uploaded_bill env fc dir w).2.db = w.db ++ [d] →
      p.id = d.id ∧ p.status = d.status ∧ p.summary = d.summary := by
  obtain ⟨st, su, ua, pa, c, h⟩ := save_success_eq env fc dir w hw hi
  intro p d h1 h2
  rw [h] at h1 h2
  have hp := Except.ok.inj h1
  have hd : ({ id := env.uuidAt w.uuidCount
               path := "./bills/" ++ env.uuidAt w.uuidCount ++ ".pdf"
               status := st, summary := su, uploaded_at := ua,
               processed_at := pa, analysis := none } : BillRecord) = d := by
    have := List.append_cancel_left h2
    simpa using this
  rw [← hp, ← hd]
  exact ⟨rfl, rfl, rfl⟩

/-- Witness for C10. -/
theorem payload_matches_inserted_record_witness :
    ({ id := "0", status := Status.processed,
       summary := some "the summary" } : Payload).id =
        ({ id := "0", path := "./bills/0.pdf", status := Status.processed,
           summary := some "the summary", uploaded_at := 1,
           processed_at := some 0, analysis := none } : BillRecord).id ∧
      ({ id := "0", status := Status.processed,
         summary := some "the summary" } : Payload).status =
        ({ id := "0", path := "./bills/0.pdf", status := Status.processed,
           summary := some "the summary", uploaded_at := 1,
           processed_at := some 0, analysis := none } : BillRecord).status ∧
      ({ id := "0", status := Status.processed,
         summary := some "the summary" } : Payload).summary =
        ({ id := "0", path := "./bills/0.pdf", status := Status.processed,
           summary := some "the summary", uploaded_at := 1,
           processed_at := some 0, analysis := none } : BillRecord).summary :=
  payload_matches_inserted_record (mkSaveEnv okVision true true) [7] "d"
    emptyWorld rfl rfl
    { id := "0", status := Status.processed, summary := some "the summary" }
    { id := "0", path := "./bills/0.pdf", status := Status.processed,
      summary := some "the summary", uploaded_at := 1, processed_at := some 0,
      analysis := none } rfl rfl

/-- C5: `analyze_medical_bill` raises and leaves the collection unchanged
when no record has the identifier or when no file exists at the record's
path; on success it submits the extracted text for one chat completion,
sets the stored record's status to `analyzed` with the analysis text, and
returns a payload with status `analyzed` and that analysis; no code path
deletes a bill record (the collection's identifiers are preserved in
order on every path). -/
theorem analyze_medical_bill_contract (env : AnalyzeEnv) (bill_id : String)
    (db : List BillRecord) (fs : FS) :
    (get_bill_by_id db bill_id = none →
        (∃ e, (analyze_medical_bill env bill_id db fs).1 = Except.error e) ∧
        (analyze_medical_bill env bill_id db fs).2 = db) ∧
    (∀ d : BillRecord, get_bill_by_id db bill_id = some d →
        fsRead fs d.path = none →
        (∃ e, (analyze_medical_bill env bill_id db fs).1 = Except.error e) ∧
        (analyze_medical_bill env bill_id db fs).2 = db) ∧
    (∀ (d : BillRecord) (content : Bytes) (text result : String),
        get_bill_by_id db bill_id = some d →
        fsRead fs d.path = some content →
        env.extractRaw content = Except.ok text →
        env.chat text = Except.ok result →
        (∃ pl : AnalysisPayload,
            (analyze_medical_bill env bill_id db fs).1 = Except.ok pl ∧
            pl.status = Status.analyzed ∧ pl.analysis = result) ∧
        get_bill_by_id (analyze_medical_bill env bill_id db fs).2 bill_id =
          some { d with status := Status.analyzed, analysis := some result }) ∧
    (analyze_medical_bill env bill_id db fs).2.map (fun r => r.id) =
      db.map (fun r => r.id) := by
  refine ⟨?_, ?_, ?_, ?_⟩
  · intro hg
    simp only [analyze_medical_bill, hg]
    exact ⟨⟨_, rfl⟩, trivial⟩
  · intro d hg hr
    simp only [analyze_medical_bill, hg, hr]
    exact ⟨⟨_, rfl⟩, trivial⟩
  · intro d content text result hg hr he hc
    have he' : extract_text_from_pdf env content = Except.ok text := by
      simp [extract_text_from_pdf, he]
    simp only [analyze_medical_bill, hg, hr, he', hc]
    refine ⟨⟨_, rfl, rfl, rfl⟩, ?_⟩
    rw [get_bill_update_one_analyzed, hg]
    rfl
  · rcases hg : get_bill_by_id db bill_id with _ | d
    · simp [analyze_medical_bill, hg]
    · rcases hr : fsRead fs d.path with _ | content
      · simp [analyze_medical_bill, hg, hr]
      · rcases he : extract_text_from_pdf env content with e | t
        · simp [analyze_medical_bill, hg, hr, he]
        · rcases hc : env.chat t with e | res
          · simp [analyze_medical_bill, hg, hr, he, hc]
          · simp only [analyze_medical_bill, hg, hr, he, hc]
            exact update_one_analyzed_map_id db bill_id res

/-- Witness for C5: a successful analysis updates the stored record. -/
theorem analyze_medical_bill_contract_witness :
    get_bill_by_id (analyze_medical_bill okAnalyzeEnv "b1" sampleDb sampleFs).2
        "b1" =
      some { id := "b1", path := "./bills/b1.pdf", status := Status.analyzed,
             summary := none, uploaded_at := 0, processed_at := none,
             analysis := some "analysis result" } :=
  ((analyze_medical_bill_contract okAnalyzeEnv "b1" sampleDb sampleFs).2.2.1
    sampleRecord [37, 80, 68, 70] "bill text" "analysis result"
    rfl rfl rfl rfl).2

/-- C6 counterexample: the claim says all three failure conditions of
`summarize_bill_with_vision` carry the same wrapping, but the
unconfigured-client failure is raised before the `try` block and its
message does not carry the `"Failed to summarize bill: "` prefix that
wraps the other failures. -/
theorem summarize_unconfigured_unwrapped :
    summarize_bill_with_vision noKeyVision "bill.pdf" =
        Except.error "OpenAI API key not configured" ∧
      List.isPrefixOf "Failed to summarize bill: ".data
        "OpenAI API key not configured".data = false :=
  ⟨rfl, by decide⟩

/-- C6 (amended): `summarize_bill_with_vision` fails exactly when the
client is unconfigured, the conversion raises, the conversion produces
zero pages, or the API call raises; all failures are the same failure
kind, the conversion and API failures being wrapped with the
`"Failed to summarize bill: "` prefix while the unconfigured failure is
raised directly without that prefix; otherwise it returns the single
text completion for the first page only. -/
theorem summarize_bill_with_vision_failure_modes (env : VisionEnv) (fp : String) :
    (env.openaiConfigured = false →
        summarize_bill_with_vision env fp =
          Except.error "OpenAI API key not configured") ∧
    (env.openaiConfigured = true →
      (∀ e, env.convert fp = Except.error e →
          summarize_bill_with_vision env fp =
            Except.error ("Failed to summarize bill: " ++ e)) ∧
      (env.convert fp = Except.ok [] →
          summarize_bill_with_vision env fp =
            Except.error
              "Failed to summarize bill: Failed to convert PDF to images") ∧
      (∀ img rest e, env.convert fp = Except.ok (img :: rest) →
          env.chat img = Except.error e →
          summarize_bill_with_vision env fp =
            Except.error ("Failed to summarize bill: " ++ e)) ∧
      (∀ img rest s, env.convert fp = Except.ok (img :: rest) →
          env.chat img = Except.ok s →
          summarize_bill_with_vision env fp = Except.ok s)) := by
  refine ⟨fun h0 => ?_, fun h1 =>
    ⟨fun e he => ?_, fun h0 => ?_, fun img rest e hcv he => ?_,
      fun img rest s hcv hs => ?_⟩⟩
  · simp [summarize_bill_with_vision, h0]
  · simp [summarize_bill_with_vision, summarizeTryBlock, h1, he]
  · simp [summarize_bill_with_vision, summarizeTryBlock, h1, h0]
  · simp [summarize_bill_with_vision, summarizeTryBlock, h1, hcv, he]
  · simp [summarize_bill_with_vision, summarizeTryBlock, h1, hcv, hs]

/-- Witness for C6 (amended): on a working environment the summarizer
returns the chat completion for the first page. -/
theorem summarize_bill_with_vision_failure_modes_witness :
    summarize_bill_with_vision okVision "bill.pdf" = Except.ok "the summary" :=
  ((summarize_bill_with_vision_failure_modes okVision "bill.pdf").2 rfl).2.2.2
    "page1img" [] "the summary" rfl rfl

/-- C7: viewing `status` as a state machine ordered
`pending < processed < analyzed`, both operations shown in the source —
record creation by `save_uploaded_bill` and mutation by
`analyze_medical_bill` — never move any pre-existing record's status
strictly backward: every record of the prior collection is related to
its successor with a non-decreasing status rank. -/
theorem status_only_advances :
    (∀ (env : SaveEnv) (fc : Bytes) (dir : String) (w : World),
        List.Forall₂ (fun r r' : BillRecord => r.status.rank ≤ r'.status.rank)
          w.db ((save_uploaded_bill env fc dir w).2.db.take w.db.length)) ∧
    (∀ (env : AnalyzeEnv) (bill_id : String) (db : List BillRecord) (fs : FS),
        List.Forall₂ (fun r r' : BillRecord => r.status.rank ≤ r'.status.rank)
          db (analyze_medical_bill env bill_id db fs).2) := by
  constructor
  · intro env fc dir w
    have hdb : (save_uploaded_bill env fc dir w).2.db.take w.db.length = w.db := by
      cases hw : env.writeOk with
      | false =>
          simp only [save_uploaded_bill, hw, Bool.false_eq_true, if_false]
          exact List.take_length w.db
      | true =>
          cases hi : env.insertOk with
          | false =>
              obtain ⟨_, _, h3⟩ := save_insert_fail_eq env fc dir w hw hi
              rw [h3]
              exact List.take_length w.db
          | true =>
              obtain ⟨st, su, ua, pa, c, h⟩ := save_success_eq env fc dir w hw hi
              rw [h]
              exact List.take_left w.db _
    rw [hdb]
    exact List.forall₂_same.mpr (fun x _ => le_refl x.status.rank)
  · intro env bill_id db fs
    rcases hg : get_bill_by_id db bill_id with _ | d
    · simp only [analyze_medical_bill, hg]
      exact List.forall₂_same.mpr (fun x _ => le_refl x.status.rank)
    · rcases hr : fsRead fs d.path with _ | content
      · simp only [analyze_medical_bill, hg, hr]
        exact List.forall₂_same.mpr (fun x _ => le_refl x.status.rank)
      · rcases he : extract_text_from_pdf env content with e | t
        · simp only [analyze_medical_bill, hg, hr, he]
          exact List.forall₂_same.mpr (fun x _ => le_refl x.status.rank)
        · rcases hc : env.chat t with e | res
          · simp only [analyze_medical_bill, hg, hr, he, hc]
            exact List.forall₂_same.mpr (fun x _ => le_refl x.status.rank)
          · simp only [analyze_medical_bill, hg, hr, he, hc]
            exact update_one_analyzed_rank db bill_id res

/-- C8: three sequential uploads of identical content yield pairwise
distinct identifiers, three distinct files each holding the content, and
one storage insert per call; uniqueness is conditional on the three
independently drawn 128-bit tokens being distinct (no collision check
exists in the code). -/
theorem three_uploads_distinct (env : SaveEnv) (fc : Bytes) (dir : String)
    (w : World)
    (hw : env.writeOk = true) (hi : env.insertOk = true)
    (h12 : env.uuidAt w.uuidCount ≠ env.uuidAt (w.uuidCount + 1))
    (h13 : env.uuidAt w.uuidCount ≠ env.uuidAt (w.uuidCount + 2))
    (h23 : env.uuidAt (w.uuidCount + 1) ≠ env.uuidAt (w.uuidCount + 2)) :
    ∃ p1 p2 p3 : Payload,
      (save_uploaded_bill env fc dir w).1 = Except.ok p1 ∧
      (save_uploaded_bill env fc dir
        (save_uploaded_bill env fc dir w).2).1 = Except.ok p2 ∧
      (save_uploaded_bill env fc dir (save_uploaded_bill env fc dir
        (save_uploaded_bill env fc dir w).2).2).1 = Except.ok p3 ∧
      p1.id ≠ p2.id ∧ p1.id ≠ p3.id ∧ p2.id ≠ p3.id ∧
      fsRead (save_uploaded_bill env fc dir (save_uploaded_bill env fc dir
          (save_uploaded_bill env fc dir w).2).2).2.fs
        (billFilePath dir p1.id) = some fc ∧
      fsRead (save_uploaded_bill env fc dir (save_uploaded_bill env fc dir
          (save_uploaded_bill env fc dir w).2).2).2.fs
        (billFilePath dir p2.id) = some fc ∧
      fsRead (save_uploaded_bill env fc dir (save_uploaded_bill env fc dir
          (save_uploaded_bill env fc dir w).2).2).2.fs
        (billFilePath dir p3.id) = some fc ∧
      (save_uploaded_bill env fc dir (save_uploaded_bill env fc dir
        (save_uploaded_bill env fc dir w).2).2).2.db.length =
        w.db.length + 3 := by
  obtain ⟨st1, su1, ua1, pa1, c1, h1⟩ := save_success_eq env fc dir w hw hi
  have hu1 : (save_uploaded_bill env fc dir w).2.uuidCount = w.uuidCount + 1 := by
    rw [h1]
  have hfs1 : (save_uploaded_bill env fc dir w).2.fs =
      fsWrite w.fs (billFilePath dir (env.uuidAt w.uuidCount)) fc := by
    rw [h1]
  have hlen1 : (save_uploaded_bill env fc dir w).2.db.length =
      w.db.length + 1 := by
    rw [h1]; simp
  obtain ⟨st2, su2, ua2, pa2, c2, h2⟩ :=
    save_success_eq env fc dir (save_uploaded_bill env fc dir w).2 hw hi
  rw [hu1, hfs1] at h2
  have hu2 : (save_uploaded_bill env fc dir
      (save_uploaded_bill env fc dir w).2).2.uuidCount = w.uuidCount + 2 := by
    rw [h2]
  have hfs2 : (save_uploaded_bill env fc dir
      (save_uploaded_bill env fc dir w).2).2.fs =
      fsWrite (fsWrite w.fs (billFilePath dir (env.uuidAt w.uuidCount)) fc)
        (billFilePath dir (env.uuidAt (w.uuidCount + 1))) fc := by
    rw [h2]
  have hlen2 : (save_uploaded_bill env fc dir
      (save_uploaded_bill env fc dir w).2).2.db.length =
      (save_uploaded_bill env fc dir w).2.db.length + 1 := by
    rw [h2]; simp
  obtain ⟨st3, su3, ua3, pa3, c3, h3⟩ :=
    save_success_eq env fc dir (save_uploaded_bill env fc dir
      (save_uploaded_bill env fc dir w).2).2 hw hi
  rw [hu2, hfs2] at h3
  have hlen3 : (save_uploaded_bill env fc dir (save_uploaded_bill env fc dir
      (save_uploaded_bill env fc dir w).2).2).2.db.length =
      (save_uploaded_bill env fc dir
        (save_uploaded_bill env fc dir w).2).2.db.length + 1 := by
    rw [h3]; simp
  have hp12 : billFilePath dir (env.uuidAt w.uuidCount) ≠
      billFilePath dir (env.uuidAt (w.uuidCount + 1)) :=
    fun hpp => h12 (billFilePath_inj dir _ _ hpp)
  have hp13 : billFilePath dir (env.uuidAt w.uuidCount) ≠
      billFilePath dir (env.uuidAt (w.uuidCount + 2)) :=
    fun hpp => h13 (billFilePath_inj dir _ _ hpp)
  have hp23 : billFilePath dir (env.uuidAt (w.uuidCount + 1)) ≠
      billFilePath dir (env.uuidAt (w.uuidCount + 2)) :=
    fun hpp => h23 (billFilePath_inj dir _ _ hpp)
  refine ⟨{ id := env.uuidAt w.uuidCount, status := st1, summary := su1 },
    { id := env.uuidAt (w.uuidCount + 1), status := st2, summary := su2 },
    { id := env.uuidAt (w.uuidCount + 2), status := st3, summary := su3 },
    ?_, ?_, ?_, h12, h13, h23, ?_, ?_, ?_, ?_⟩
  · rw [h1]
  · rw [h2]
  · rw [h3]
  · rw [h3, fsRead_fsWrite_ne _ _ _ _ hp13, fsRead_fsWrite_ne _ _ _ _ hp12]
    exact fsRead_fsWrite_self _ _ _
  · rw [h3, fsRead_fsWrite_ne _ _ _ _ hp23]
    exact fsRead_fsWrite_self _ _ _
  · rw [h3]
    exact fsRead_fsWrite_self _ _ _
  · rw [hlen3, hlen2, hlen1]

/-- Witness for C8. -/
theorem three_uploads_distinct_witness :
    (save_uploaded_bill (mkSaveEnv noKeyVision true true) [5] "d"
      (save_uploaded_bill (mkSaveEnv noKeyVision true true) [5] "d"
        (save_uploaded_bill (mkSaveEnv noKeyVision true true) [5] "d"
          emptyWorld).2).2).2.db.length = emptyWorld.db.length + 3 := by
  obtain ⟨p1, p2, p3, h1, h2, h3, h4, h5, h6, h7, h8, h9, hlen⟩ :=
    three_uploads_distinct (mkSaveEnv noKeyVision true true) [5] "d" emptyWorld
      rfl rfl (by decide) (by decide) (by decide)
  exact hlen

end BillApp
